import Mathlib

/-!
Verification of the SCPI instrument session protocol of the
Professional-Instrument-Control-System repository.

The development shallowly embeds the two drivers the claims are about:

* `instrument_control/keithley_power_supply.py` (`KeithleyPowerSupply`):
  connect / disconnect / configure_channel / enable_channel_output /
  disable_channel_output / measure_channel_output.
* `instrument_control/keithley_dmm.py` (`KeithleyDMM6500`):
  disconnect / measure (range, resolution and NPLC snapping, numeric
  response parsing) / perform_measurement_statistics.

Modelling conventions:

* Python floats are modelled as exact rationals (`ℚ`); the one place the code
  takes a square root (`statistics.stdev`) is modelled in `ℝ`.
* The instrument hardware is modelled as a deterministic store of per-channel
  registers; an SCPI write updates the register of the currently selected
  channel and an SCPI query reads it back.  Communication faults are modelled
  explicitly (as `Bool`-valued fault parameters) exactly where a claim is
  about fault behaviour (the disconnect paths and the connect failure path);
  the remaining operations are analysed on the fault-free command path.
* A Python method that can raise is embedded with an explicit result type
  (`CallResult`) distinguishing a returned `True`, a returned `False`, and a
  raised exception, so that "returns failure" and "raises" are different
  observable outcomes.
-/

/-! ## Power supply: data model (`keithley_power_supply.py`) -/

/-- Exceptions a `KeithleyPowerSupply` public method can raise:
`KeithleyPowerSupplyError("Power supply not connected")` and the
`ValueError` raised by parameter validation. -/
inductive PsuExc where
  | notConnected
  | valueError
deriving DecidableEq

/-- Outcome of a Python call returning `bool` that may also raise. -/
inductive CallResult where
  | retTrue
  | retFalse
  | raised (e : PsuExc)
deriving DecidableEq

/-- The hardware registers of one power-supply channel.  `voltage`,
`currentLimit`, `outputOn`, `ovpLevel`, `ovpOn` are written by
`:VOLTage`, `:CURRent`, `:OUTPut`, `:VOLTage:PROTection:LEVel`,
`:VOLTage:PROTection:STATe`; `measuredVoltage`/`measuredCurrent` are the
values the instrument reports for `:MEASure:VOLTage?`/`:MEASure:CURRent?`
(physical readings, not touched by setpoint writes). -/
structure PsuChannel where
  voltage : ℚ
  currentLimit : ℚ
  outputOn : Bool
  ovpLevel : ℚ
  ovpOn : Bool
  measuredVoltage : ℚ
  measuredCurrent : ℚ
deriving DecidableEq

/-- The `ChannelConfiguration` dataclass of the source. -/
structure ChannelConfiguration where
  voltage : ℚ
  current_limit : ℚ
  ovp_level : Option ℚ
  ocp_level : Option ℚ
  enabled : Bool
deriving DecidableEq

/-- In-memory state of a `KeithleyPowerSupply` object together with the
modelled instrument hardware.  `hasInstrument` / `hasResourceManager` model
`self._instrument is not None` / `self._resource_manager is not None`;
`selected` models the channel selected by `:INSTrument:SELect CHn`.
`maxChannels`, `maxVoltage`, `maxCurrent` are the capability limits fixed by
`_configure_model_parameters` (model detection itself is outside the claims;
the limits are carried as state, as in the source after detection). -/
structure PsuState where
  isConnected : Bool
  hasInstrument : Bool
  hasResourceManager : Bool
  maxChannels : ℕ
  maxVoltage : ℚ
  maxCurrent : ℚ
  channelConfigs : ℕ → Option ChannelConfiguration
  channels : ℕ → PsuChannel
  selected : ℕ

/-! ## Power supply: SCPI primitives -/

/-- Models `:INSTrument:SELect CHn`. -/
def selectChannel (s : PsuState) (ch : ℕ) : PsuState :=
  { s with selected := ch }

/-- Models `:VOLTage v` on the selected channel. -/
def writeVoltage (s : PsuState) (v : ℚ) : PsuState :=
  { s with channels := fun n =>
      if n = s.selected then { s.channels n with voltage := v } else s.channels n }

/-- Models `:CURRent i` on the selected channel. -/
def writeCurrentLimit (s : PsuState) (i : ℚ) : PsuState :=
  { s with channels := fun n =>
      if n = s.selected then { s.channels n with currentLimit := i } else s.channels n }

/-- Models `:OUTPut ON/OFF` on the selected channel. -/
def writeOutput (s : PsuState) (b : Bool) : PsuState :=
  { s with channels := fun n =>
      if n = s.selected then { s.channels n with outputOn := b } else s.channels n }

/-- Models `:VOLTage:PROTection:LEVel v` on the selected channel. -/
def writeOvpLevel (s : PsuState) (v : ℚ) : PsuState :=
  { s with channels := fun n =>
      if n = s.selected then { s.channels n with ovpLevel := v } else s.channels n }

/-- Models `:VOLTage:PROTection:STATe ON/OFF` on the selected channel. -/
def writeOvpState (s : PsuState) (b : Bool) : PsuState :=
  { s with channels := fun n =>
      if n = s.selected then { s.channels n with ovpOn := b } else s.channels n }

/-- Models `self._channel_configs[channel] = cfg`. -/
def setConfig (s : PsuState) (ch : ℕ) (cfg : ChannelConfiguration) : PsuState :=
  { s with channelConfigs := fun n =>
      if n = ch then some cfg else s.channelConfigs n }

/-- Models `if channel in self._channel_configs: self._channel_configs[channel].enabled = b`
(the membership guard is folded into `Option.map`). -/
def setConfigEnabled (s : PsuState) (ch : ℕ) (b : Bool) : PsuState :=
  { s with channelConfigs := fun n =>
      if n = ch then (s.channelConfigs n).map (fun c => { c with enabled := b })
      else s.channelConfigs n }

/-- Models `_cleanup_connection`: resets the connection flag, drops both transport
handles and clears the stored channel configurations. -/
def cleanupConnection (s : PsuState) : PsuState :=
  { s with isConnected := false, hasInstrument := false, hasResourceManager := false,
           channelConfigs := fun _ => none }

/-! ## Power supply: operations -/

/-- Models `_disable_channel_output_internal`: select the channel, write
`:OUTPut OFF`, read `:OUTPut?` back (the modelled instrument reports the
just-written state, so the verification succeeds), mark the stored
configuration disabled, return `True`.  Its `except` clause catches every
exception of its own body, so it never raises. -/
def disableChannelOutputInternal (s : PsuState) (ch : ℕ) : PsuState × Bool :=
  let s1 := writeOutput (selectChannel s ch) false
  (setConfigEnabled s1 ch false, true)

/-- Models `enable_channel_output`: raises when not connected, raises `ValueError`
for a channel outside `1..max_channels`, otherwise selects the channel,
writes `:OUTPut ON`, reads the state back (matching in the deterministic
hardware model) and marks the stored configuration enabled. -/
def enable_channel_output (s : PsuState) (channel : ℤ) : PsuState × CallResult :=
  if s.isConnected = false then (s, .raised .notConnected)
  else if ¬(1 ≤ channel ∧ channel ≤ (s.maxChannels : ℤ)) then (s, .raised .valueError)
  else
    let ch := channel.toNat
    let s1 := writeOutput (selectChannel s ch) true
    (setConfigEnabled s1 ch true, .retTrue)

/-- Models `disable_channel_output`: raises when not connected, raises `ValueError`
for an out-of-range channel, otherwise delegates to
`_disable_channel_output_internal`. -/
def disable_channel_output (s : PsuState) (channel : ℤ) : PsuState × CallResult :=
  if s.isConnected = false then (s, .raised .notConnected)
  else if ¬(1 ≤ channel ∧ channel ≤ (s.maxChannels : ℤ)) then (s, .raised .valueError)
  else
    let r := disableChannelOutputInternal s channel.toNat
    (r.1, if r.2 then .retTrue else .retFalse)

/-- Models `num_steps = int(abs(voltage_difference) / self._max_voltage_step) + 1`
(Python `int` truncates; the quotient is nonnegative, so this is the floor). -/
def rampNumSteps (diff : ℚ) : ℕ := (⌊|diff| / 5⌋).toNat + 1

/-- Models `_ramp_voltage_safely`: if the requested change is within the 5 V step
limit, write the target directly; otherwise interpolate
`start + diff / num_steps * k` for `k = 1..num_steps` with a settle delay at
each step (the source's channel argument is unused there and is dropped
here). -/
def rampVoltageSafely (s : PsuState) (startV targetV : ℚ) : PsuState :=
  if |targetV - startV| ≤ 5 then writeVoltage s targetV
  else
    (List.range (rampNumSteps (targetV - startV))).foldl
      (fun acc (k : ℕ) =>
        writeVoltage acc
          (startV + (targetV - startV) / (rampNumSteps (targetV - startV) : ℚ) * ((k : ℚ) + 1)))
      s

/-- Models `configure_channel` (`keithley_power_supply.py` lines 255-355):
raises `KeithleyPowerSupplyError` when not connected; raises `ValueError`
for channel/voltage/current-limit outside bounds; otherwise disables the
output, selects the channel, ramps the voltage from the read-back setpoint,
writes the current limit, applies OVP **only when `ovp_level > voltage`**
(otherwise merely logs a warning), reads both setpoints back, stores a
`ChannelConfiguration` (whose `ovp_level` field is the *requested* value),
optionally enables the output, and returns `True`.  The
`except (VisaIOError, ValueError)` clause turns those exceptions of the body
into a returned `False`; a `KeithleyPowerSupplyError` from the nested
`enable_channel_output` call would propagate. -/
def configure_channel (s : PsuState) (channel : ℤ) (voltage current_limit : ℚ)
    (ovp_level : Option ℚ) (enable_output : Bool) : PsuState × CallResult :=
  if s.isConnected = false then (s, .raised .notConnected)
  else if ¬(1 ≤ channel ∧ channel ≤ (s.maxChannels : ℤ)) then (s, .raised .valueError)
  else if ¬(0 ≤ voltage ∧ voltage ≤ s.maxVoltage) then (s, .raised .valueError)
  else if ¬(1/1000 ≤ current_limit ∧ current_limit ≤ s.maxCurrent) then (s, .raised .valueError)
  else
    let ch := channel.toNat
    let s1 := (disableChannelOutputInternal s ch).1
    let s2 := selectChannel s1 ch
    let startVoltage := (s2.channels ch).voltage
    let s3 := rampVoltageSafely s2 startVoltage voltage
    let s4 := writeCurrentLimit s3 current_limit
    let s5 := match ovp_level with
      | some ovp => if voltage < ovp then writeOvpState (writeOvpLevel s4 ovp) true else s4
      | none => s4
    let actualVoltage := (s5.channels ch).voltage
    let actualCurrent := (s5.channels ch).currentLimit
    let s6 := setConfig s5 ch
      { voltage := actualVoltage, current_limit := actualCurrent,
        ovp_level := ovp_level, ocp_level := none, enabled := false }
    if enable_output then
      match enable_channel_output s6 channel with
      | (s7, .retTrue) => (setConfigEnabled s7 ch true, .retTrue)
      | (s7, .retFalse) => (s7, .retTrue)
      | (s7, .raised .valueError) => (s7, .retFalse)
      | (s7, .raised .notConnected) => (s7, .raised .notConnected)
    else (s6, .retTrue)

/-- Models `measure_channel_output`: returns `None` (never raises) when not
connected or for an out-of-range channel; otherwise selects the channel and
returns the instrument's measured voltage and current. -/
def measure_channel_output (s : PsuState) (channel : ℤ) :
    PsuState × Option (ℚ × ℚ) :=
  if s.isConnected = false then (s, none)
  else if ¬(1 ≤ channel ∧ channel ≤ (s.maxChannels : ℤ)) then (s, none)
  else
    let ch := channel.toNat
    let s1 := selectChannel s ch
    (s1, some ((s1.channels ch).measuredVoltage, (s1.channels ch).measuredCurrent))

/-- One iteration of `_initialize_channels_safe_state`'s loop: select the
channel and write `:VOLTage 0.0`, `:CURRent 0.1`, `:OUTPut OFF`. -/
def initChannelStep (acc : PsuState) (ch : ℕ) : PsuState :=
  writeOutput (writeCurrentLimit (writeVoltage (selectChannel acc ch) 0) (1/10)) false

/-- Models `_initialize_channels_safe_state`: run `initChannelStep` on every channel
`1..max_channels` (`range(1, self.max_channels + 1)`). -/
def initChannelsSafeState (s : PsuState) : PsuState :=
  (List.range' 1 s.maxChannels).foldl initChannelStep s

/-- Models `connect` (`keithley_power_supply.py` lines 148-217): open the resource
manager and the instrument, identify, clear/reset, run
`_initialize_channels_safe_state`, confirm with `*OPC?` and mark connected.
`openFails` models a `VisaIOError` while opening the transport: the handler
runs `_cleanup_connection` and returns `False`.  `*RST`'s model-specific
hardware effect is not part of the source, so it is modelled as leaving the
channel registers unchanged: the safe state is established solely by the
explicit per-channel writes, as the claim asserts. -/
def psuConnect (s : PsuState) (openFails : Bool) : PsuState × Bool :=
  let sRm := { s with hasResourceManager := true }
  if openFails then (cleanupConnection sRm, false)
  else
    let sOpen := { sRm with hasInstrument := true }
    let s1 := initChannelsSafeState sOpen
    ({ s1 with isConnected := true }, true)

/-- Fault configuration for `disconnect`: which of the internal steps raise.
A per-channel disable fault is pinned at the channel's first SCPI write, so
a faulted channel's state is unchanged; `_disable_channel_output_internal`'s
own `except` clause swallows it and returns `False`. -/
structure PsuDisconnectFaults where
  disableRaises : ℕ → Bool
  clsRaises : Bool
  closeRaises : Bool
  rmCloseRaises : Bool

/-- The `try` block of `disconnect` (lines 226-245): best-effort disable of
every channel, `*CLS`, close the instrument, close the resource manager.
The second component records whether the block raised. -/
def psuDisconnectBody (s : PsuState) (f : PsuDisconnectFaults) : PsuState × Option Unit :=
  if s.hasInstrument then
    let sD := (List.range' 1 s.maxChannels).foldl
      (fun acc ch =>
        if f.disableRaises ch then acc else (disableChannelOutputInternal acc ch).1) s
    if f.clsRaises then (sD, some ())
    else if f.closeRaises then (sD, some ())
    else if s.hasResourceManager then
      (if f.rmCloseRaises then (sD, some ()) else (sD, none))
    else (sD, none)
  else if s.hasResourceManager then
    (if f.rmCloseRaises then (s, some ()) else (s, none))
  else (s, none)

/-- Models `disconnect` (lines 219-253): the `except Exception` clause swallows any
exception of the body (its `Option Unit` component is discarded), and the
`finally` clause unconditionally runs `_cleanup_connection`.  The second
component of the result is the exception that propagates to the caller:
always `none`. -/
def psuDisconnect (s : PsuState) (f : PsuDisconnectFaults) : PsuState × Option Unit :=
  (cleanupConnection (psuDisconnectBody s f).1, none)

/-! ## A concrete connected session (2230-30-3 limits) used as test input -/

/-- A freshly connected 2230-30-3 session: 3 channels at 0 V, 0.1 A limit,
output off, no stored configurations. -/
def testPsu : PsuState :=
  { isConnected := true, hasInstrument := true, hasResourceManager := true,
    maxChannels := 3, maxVoltage := 30, maxCurrent := 3,
    channelConfigs := fun _ => none,
    channels := fun _ =>
      { voltage := 0, currentLimit := 1/10, outputOn := false,
        ovpLevel := 0, ovpOn := false, measuredVoltage := 0, measuredCurrent := 0 },
    selected := 1 }

/-- The same session before `connect` succeeded. -/
def testPsuDisconnected : PsuState :=
  { testPsu with isConnected := false }

/-! ## Power supply: characterization lemmas -/

lemma writeVoltage_writeVoltage (s : PsuState) (x y : ℚ) :
    writeVoltage (writeVoltage s x) y = writeVoltage s y := by
  unfold writeVoltage
  congr 1
  funext n
  by_cases h : n = s.selected <;> simp [h]

lemma writeVoltage_fold (s : PsuState) (g : ℕ → ℚ) (n : ℕ) (h : 0 < n) :
    (List.range n).foldl (fun acc k => writeVoltage acc (g k)) s =
      writeVoltage s (g (n - 1)) := by
  induction n with
  | zero => omega
  | succ m ih =>
    rw [List.range_succ, List.foldl_append]
    rcases Nat.eq_zero_or_pos m with hm | hm
    · subst hm; rfl
    · simp only [List.foldl_cons, List.foldl_nil]
      rw [ih hm, writeVoltage_writeVoltage, Nat.succ_sub_one]

lemma rampVoltageSafely_eq (s : PsuState) (a b : ℚ) :
    rampVoltageSafely s a b = writeVoltage s b := by
  unfold rampVoltageSafely
  by_cases h : |b - a| ≤ 5
  · rw [if_pos h]
  · rw [if_neg h,
      writeVoltage_fold s
        (fun k : ℕ => a + (b - a) / (rampNumSteps (b - a) : ℚ) * ((k : ℚ) + 1))
        (rampNumSteps (b - a)) (by simp [rampNumSteps])]
    have hN : ((rampNumSteps (b - a) : ℕ) : ℚ) ≠ 0 := by
      simp only [rampNumSteps]
      push_cast
      positivity
    have hsub : ((rampNumSteps (b - a) - 1 : ℕ) : ℚ) + 1 = (rampNumSteps (b - a) : ℚ) := by
      simp only [rampNumSteps, Nat.add_sub_cancel]
      push_cast
      ring
    rw [hsub, div_mul_cancel₀ _ hN]
    congr 1
    ring

/-- Happy-path characterization of `configure_channel` with
`enable_output = False` and an OVP request not exceeding the voltage: the
OVP branch only logs, so the channel's protection registers are untouched,
the stored configuration keeps the requested (invalid) `ovp_level`, and the
call returns `True`. -/
lemma configure_channel_happy (s : PsuState) (channel : ℤ) (v i o : ℚ)
    (hc : s.isConnected = true) (h1 : 1 ≤ channel) (h2 : channel ≤ (s.maxChannels : ℤ))
    (h3 : 0 ≤ v) (h4 : v ≤ s.maxVoltage) (h5 : 1/1000 ≤ i) (h6 : i ≤ s.maxCurrent)
    (ho : o ≤ v) :
    configure_channel s channel v i (some o) false =
      ({ s with
          selected := channel.toNat,
          channels := fun n => if n = channel.toNat then
              { s.channels n with voltage := v, currentLimit := i, outputOn := false }
            else s.channels n,
          channelConfigs := fun n => if n = channel.toNat then
              some { voltage := v, current_limit := i, ovp_level := some o,
                     ocp_level := none, enabled := false }
            else s.channelConfigs n }, .retTrue) := by
  simp only [configure_channel]
  rw [if_neg (by simp [hc]), if_neg (not_not_intro ⟨h1, h2⟩),
    if_neg (not_not_intro ⟨h3, h4⟩), if_neg (not_not_intro ⟨h5, h6⟩)]
  simp only [disableChannelOutputInternal, rampVoltageSafely_eq]
  rw [if_neg (not_lt.mpr ho), if_neg Bool.false_ne_true]
  refine congrArg₂ Prod.mk ?_ rfl
  simp only [selectChannel, writeOutput, setConfigEnabled, writeVoltage,
    writeCurrentLimit, setConfig]
  congr 1
  · funext n
    by_cases hn : n = channel.toNat <;> simp [hn]
  · funext n
    by_cases hn : n = channel.toNat <;> simp [hn]

lemma initChannelStep_channels (acc : PsuState) (j n : ℕ) :
    (initChannelStep acc j).channels n =
      if n = j then
        { acc.channels n with voltage := 0, currentLimit := 1/10, outputOn := false }
      else acc.channels n := by
  simp only [initChannelStep, writeOutput, writeCurrentLimit, writeVoltage, selectChannel]
  by_cases hn : n = j <;> simp [hn]

lemma initFold_preserve (L : List ℕ) (acc : PsuState) (ch : ℕ) (h : ch ∉ L) :
    (L.foldl initChannelStep acc).channels ch = acc.channels ch := by
  induction L generalizing acc with
  | nil => rfl
  | cons a t ih =>
    rw [List.foldl_cons, ih _ (fun hm => h (List.mem_cons_of_mem _ hm)),
      initChannelStep_channels, if_neg (by rintro rfl; exact h (List.mem_cons_self _ _))]

lemma initFold_safe (L : List ℕ) (acc : PsuState) (ch : ℕ) (h : ch ∈ L) :
    ((L.foldl initChannelStep acc).channels ch).voltage = 0 ∧
    ((L.foldl initChannelStep acc).channels ch).outputOn = false := by
  induction L generalizing acc with
  | nil => cases h
  | cons a t ih =>
    rw [List.foldl_cons]
    by_cases ht : ch ∈ t
    · exact ih _ ht
    · have hca : ch = a := by
        rcases List.mem_cons.mp h with h' | h'
        · exact h'
        · exact absurd h' ht
      rw [initFold_preserve t _ ch ht, initChannelStep_channels, if_pos hca]
      exact ⟨rfl, rfl⟩

lemma initChannelsSafeState_safe (s : PsuState) (ch : ℕ)
    (h1 : 1 ≤ ch) (h2 : ch ≤ s.maxChannels) :
    ((initChannelsSafeState s).channels ch).voltage = 0 ∧
    ((initChannelsSafeState s).channels ch).outputOn = false := by
  apply initFold_safe
  rw [List.mem_range'_1]
  omega

lemma PsuChannel.outputOn_update_self (c : PsuChannel) (h : c.outputOn = false) :
    { c with outputOn := false } = c := by
  cases c
  simp_all

lemma ChannelConfiguration.enabled_update_self (c : ChannelConfiguration)
    (h : c.enabled = false) : { c with enabled := false } = c := by
  cases c
  simp_all

/-- A session whose instrument was left energized and misconfigured by a
previous user, before `connect()` runs. -/
def dirtyPsu : PsuState :=
  { isConnected := false, hasInstrument := false, hasResourceManager := false,
    maxChannels := 3, maxVoltage := 30, maxCurrent := 3,
    channelConfigs := fun _ => none,
    channels := fun _ =>
      { voltage := 17, currentLimit := 3, outputOn := true,
        ovpLevel := 5, ovpOn := true, measuredVoltage := 12, measuredCurrent := 2 },
    selected := 1 }

/-! ## Claim theorems: power supply -/

/-- C1, counterexample: on a freshly connected 2230 session,
`configure_channel(1, voltage=25.0, current_limit=1.0, ovp_level=20.0)`
returns success, but the OVP level is *not* clamped upward to 26.0: the
stored configuration keeps the requested 20.0, and the instrument's
protection registers are untouched (level still 0, protection off), so no
OVP strictly greater than the applied voltage is stored or applied. -/
theorem configure_channel_ovp_not_clamped :
    (configure_channel testPsu 1 25 1 (some 20) false).2 = .retTrue ∧
    (configure_channel testPsu 1 25 1 (some 20) false).1.channelConfigs 1 =
      some { voltage := 25, current_limit := 1, ovp_level := some 20,
             ocp_level := none, enabled := false } ∧
    ((configure_channel testPsu 1 25 1 (some 20) false).1.channels 1).ovpLevel = 0 ∧
    ((configure_channel testPsu 1 25 1 (some 20) false).1.channels 1).ovpOn = false ∧
    (20 : ℚ) ≠ 26 := by
  rw [configure_channel_happy testPsu 1 25 1 20 rfl (by decide) (by norm_num [testPsu])
    (by norm_num) (by norm_num [testPsu]) (by norm_num) (by norm_num [testPsu]) (by norm_num)]
  refine ⟨rfl, by norm_num, by norm_num [testPsu], by norm_num [testPsu], by norm_num⟩

/-- C1, amended: for every `configure_channel` call on a connected session
with in-range channel, voltage and current limit and `ovp_level ≤ voltage`,
the OVP request is *skipped* (a warning is logged): the channel's hardware
protection registers are left unchanged, the stored configuration records
the requested `ovp_level` verbatim, and the call still returns success. -/
theorem configure_channel_ovp_skipped (s : PsuState) (channel : ℤ) (v i o : ℚ)
    (hc : s.isConnected = true) (h1 : 1 ≤ channel) (h2 : channel ≤ (s.maxChannels : ℤ))
    (h3 : 0 ≤ v) (h4 : v ≤ s.maxVoltage) (h5 : 1/1000 ≤ i) (h6 : i ≤ s.maxCurrent)
    (ho : o ≤ v) :
    (configure_channel s channel v i (some o) false).2 = .retTrue ∧
    (configure_channel s channel v i (some o) false).1.channelConfigs channel.toNat =
      some { voltage := v, current_limit := i, ovp_level := some o,
             ocp_level := none, enabled := false } ∧
    ((configure_channel s channel v i (some o) false).1.channels channel.toNat).ovpLevel =
      (s.channels channel.toNat).ovpLevel ∧
    ((configure_channel s channel v i (some o) false).1.channels channel.toNat).ovpOn =
      (s.channels channel.toNat).ovpOn := by
  rw [configure_channel_happy s channel v i o hc h1 h2 h3 h4 h5 h6 ho]
  exact ⟨rfl, by simp, by simp, by simp⟩

/-- C1, witness for the amended claim at the claim's own input. -/
theorem configure_channel_ovp_skipped_witness :
    (configure_channel testPsu 1 25 1 (some 20) false).2 = .retTrue ∧
    (configure_channel testPsu 1 25 1 (some 20) false).1.channelConfigs 1 =
      some { voltage := 25, current_limit := 1, ovp_level := some 20,
             ocp_level := none, enabled := false } ∧
    ((configure_channel testPsu 1 25 1 (some 20) false).1.channels 1).ovpLevel =
      (testPsu.channels 1).ovpLevel ∧
    ((configure_channel testPsu 1 25 1 (some 20) false).1.channels 1).ovpOn =
      (testPsu.channels 1).ovpOn :=
  configure_channel_ovp_skipped testPsu 1 25 1 20 rfl (by decide) (by norm_num [testPsu])
    (by norm_num) (by norm_num [testPsu]) (by norm_num) (by norm_num [testPsu]) (by norm_num)

/-- C2, counterexample: on a connected session, `configure_channel` with the
out-of-range channel 5 raises `ValueError` — it does not report the
validation failure as a returned failure result. -/
theorem configure_channel_invalid_channel_raises :
    (configure_channel testPsu 5 1 1 none false).2 = .raised .valueError ∧
    (configure_channel testPsu 5 1 1 none false).2 ≠ .retFalse ∧
    (configure_channel testPsu 5 1 1 none false).2 ≠ .retTrue := by
  have h : (configure_channel testPsu 5 1 1 none false).2 = .raised .valueError := by
    simp only [configure_channel]
    rw [if_neg (by simp [testPsu]), if_pos (by norm_num [testPsu])]
  rw [h]
  exact ⟨rfl, by simp, by simp⟩

/-- C2, amended: `configure_channel`'s validation failures are raised
exceptions, not returned failure results: a disconnected session raises the
distinct not-connected error, and on a connected session an out-of-range
channel, voltage, or current limit raises `ValueError`, in that order of
checks, leaving the state unchanged. -/
theorem configure_channel_validation_behaviour (s : PsuState) (channel : ℤ)
    (v i : ℚ) (o : Option ℚ) (en : Bool) :
    (s.isConnected = false →
      configure_channel s channel v i o en = (s, .raised .notConnected)) ∧
    (s.isConnected = true → ¬(1 ≤ channel ∧ channel ≤ (s.maxChannels : ℤ)) →
      configure_channel s channel v i o en = (s, .raised .valueError)) ∧
    (s.isConnected = true → (1 ≤ channel ∧ channel ≤ (s.maxChannels : ℤ)) →
      ¬(0 ≤ v ∧ v ≤ s.maxVoltage) →
      configure_channel s channel v i o en = (s, .raised .valueError)) ∧
    (s.isConnected = true → (1 ≤ channel ∧ channel ≤ (s.maxChannels : ℤ)) →
      (0 ≤ v ∧ v ≤ s.maxVoltage) → ¬(1/1000 ≤ i ∧ i ≤ s.maxCurrent) →
      configure_channel s channel v i o en = (s, .raised .valueError)) := by
  refine ⟨fun hc => ?_, fun hc hch => ?_, fun hc hch hv => ?_, fun hc hch hv hi => ?_⟩
  · simp only [configure_channel]
    rw [if_pos hc]
  · simp only [configure_channel]
    rw [if_neg (by simp [hc]), if_pos hch]
  · simp only [configure_channel]
    rw [if_neg (by simp [hc]), if_neg (not_not_intro hch), if_pos hv]
  · simp only [configure_channel]
    rw [if_neg (by simp [hc]), if_neg (not_not_intro hch), if_neg (not_not_intro hv),
      if_pos hi]

/-- C2, witness: the four validation outcomes at concrete inputs. -/
theorem configure_channel_validation_behaviour_witness :
    configure_channel testPsuDisconnected 1 5 1 none false =
      (testPsuDisconnected, .raised .notConnected) ∧
    configure_channel testPsu 5 5 1 none false = (testPsu, .raised .valueError) ∧
    configure_channel testPsu 1 40 1 none false = (testPsu, .raised .valueError) ∧
    configure_channel testPsu 1 5 4 none false = (testPsu, .raised .valueError) :=
  ⟨(configure_channel_validation_behaviour testPsuDisconnected 1 5 1 none false).1 rfl,
   (configure_channel_validation_behaviour testPsu 5 5 1 none false).2.1 rfl
     (by norm_num [testPsu]),
   (configure_channel_validation_behaviour testPsu 1 40 1 none false).2.2.1 rfl
     (by norm_num [testPsu]) (by norm_num [testPsu]),
   (configure_channel_validation_behaviour testPsu 1 5 4 none false).2.2.2 rfl
     (by norm_num [testPsu]) (by norm_num [testPsu]) (by norm_num [testPsu])⟩

/-- C3: after every successful `connect()`, every channel `1..max_channels`
is in the safe default state — voltage setpoint 0 and output disabled —
regardless of the instrument's state before connecting. -/
theorem connect_initializes_channels_safe (s : PsuState) (openFails : Bool)
    (hok : (psuConnect s openFails).2 = true) (ch : ℕ)
    (h1 : 1 ≤ ch) (h2 : ch ≤ s.maxChannels) :
    ((psuConnect s openFails).1.channels ch).voltage = 0 ∧
    ((psuConnect s openFails).1.channels ch).outputOn = false := by
  cases openFails with
  | true => simp [psuConnect] at hok
  | false =>
    simp only [psuConnect, Bool.false_eq_true, if_neg, if_false]
    exact initChannelsSafeState_safe _ ch h1 h2

/-- C3, witness: connecting over a dirty instrument (outputs energized at
17 V) leaves channel 2 at 0 V with its output disabled. -/
theorem connect_initializes_channels_safe_witness :
    ((psuConnect dirtyPsu false).1.channels 2).voltage = 0 ∧
    ((psuConnect dirtyPsu false).1.channels 2).outputOn = false :=
  connect_initializes_channels_safe dirtyPsu false rfl 2 (by decide) (by decide)

/-- C9: `disable_channel_output` on a connected session, for a valid channel
whose output is already disabled (hardware output off, stored configuration
— if any — not marked enabled), returns success and leaves both the stored
configurations and the channel registers unchanged. -/
theorem disable_channel_output_idempotent (s : PsuState) (channel : ℤ)
    (hc : s.isConnected = true) (h1 : 1 ≤ channel) (h2 : channel ≤ (s.maxChannels : ℤ))
    (hoff : (s.channels channel.toNat).outputOn = false)
    (hcfg : ∀ c, s.channelConfigs channel.toNat = some c → c.enabled = false) :
    (disable_channel_output s channel).2 = .retTrue ∧
    (∀ n, (disable_channel_output s channel).1.channelConfigs n = s.channelConfigs n) ∧
    (∀ n, (disable_channel_output s channel).1.channels n = s.channels n) := by
  simp only [disable_channel_output]
  rw [if_neg (by simp [hc]), if_neg (not_not_intro ⟨h1, h2⟩)]
  simp only [disableChannelOutputInternal, writeOutput, selectChannel, setConfigEnabled]
  refine ⟨rfl, fun n => ?_, fun n => ?_⟩
  · by_cases hn : n = channel.toNat
    · rw [if_pos hn]
      cases hc2 : s.channelConfigs n with
      | none => simp [hc2]
      | some c =>
        have hce : c.enabled = false := hcfg c (hn ▸ hc2)
        rw [Option.map_some', ChannelConfiguration.enabled_update_self c hce]
    · simp [hn]
  · by_cases hn : n = channel.toNat
    · rw [if_pos hn]
      exact PsuChannel.outputOn_update_self _ (by rw [hn]; exact hoff)
    · simp [hn]

/-- C9, witness: disabling the already-disabled channel 1 of a fresh
session succeeds and changes nothing. -/
theorem disable_channel_output_idempotent_witness :
    (disable_channel_output testPsu 1).2 = .retTrue ∧
    (disable_channel_output testPsu 1).1.channelConfigs 1 = testPsu.channelConfigs 1 ∧
    (disable_channel_output testPsu 1).1.channels 1 = testPsu.channels 1 :=
  ⟨(disable_channel_output_idempotent testPsu 1 rfl (by decide) (by norm_num [testPsu])
      rfl (by intro c h; simp [testPsu] at h)).1,
   (disable_channel_output_idempotent testPsu 1 rfl (by decide) (by norm_num [testPsu])
      rfl (by intro c h; simp [testPsu] at h)).2.1 1,
   (disable_channel_output_idempotent testPsu 1 rfl (by decide) (by norm_num [testPsu])
      rfl (by intro c h; simp [testPsu] at h)).2.2 1⟩

/-- C10: `measure_channel_output` on a disconnected session or with an
out-of-range channel returns the no-value result `None` without raising,
whereas `configure_channel`, `enable_channel_output` and
`disable_channel_output` raise the distinct not-connected error on a
disconnected session. -/
theorem measure_channel_output_returns_none (s : PsuState) (channel : ℤ)
    (v i : ℚ) (o : Option ℚ) (en : Bool) :
    (s.isConnected = false →
      measure_channel_output s channel = (s, none) ∧
      configure_channel s channel v i o en = (s, .raised .notConnected) ∧
      enable_channel_output s channel = (s, .raised .notConnected) ∧
      disable_channel_output s channel = (s, .raised .notConnected)) ∧
    (s.isConnected = true → ¬(1 ≤ channel ∧ channel ≤ (s.maxChannels : ℤ)) →
      (measure_channel_output s channel).2 = none) := by
  constructor
  · intro hc
    refine ⟨?_, ?_, ?_, ?_⟩
    · simp only [measure_channel_output]
      rw [if_pos hc]
    · simp only [configure_channel]
      rw [if_pos hc]
    · simp only [enable_channel_output]
      rw [if_pos hc]
    · simp only [disable_channel_output]
      rw [if_pos hc]
  · intro hc hch
    simp only [measure_channel_output]
    rw [if_neg (by simp [hc]), if_pos hch]

/-- C10, witness: both `None` paths and one raising contrast at concrete
inputs. -/
theorem measure_channel_output_returns_none_witness :
    measure_channel_output testPsuDisconnected 1 = (testPsuDisconnected, none) ∧
    configure_channel testPsuDisconnected 1 5 1 none false =
      (testPsuDisconnected, .raised .notConnected) ∧
    (measure_channel_output testPsu 5).2 = none :=
  ⟨((measure_channel_output_returns_none testPsuDisconnected 1 5 1 none false).1 rfl).1,
   ((measure_channel_output_returns_none testPsuDisconnected 1 5 1 none false).1 rfl).2.1,
   (measure_channel_output_returns_none testPsu 5 5 1 none false).2 rfl
     (by norm_num [testPsu])⟩

/-! ## Multimeter: numeric response parsing (`keithley_dmm.py`)

`measure` obtains its value as `float(value_str.strip())` and turns a
`ValueError` into a failed measurement (`None`).  Python's `str.strip()`
and the finite decimal grammar of `float()` (optional sign, integer and/or
fraction digits, optional exponent; `inf`/`nan` spellings and digit-group
underscores do not occur in instrument responses and are not modelled) are
embedded below. -/

/-- The six ASCII whitespace characters removed by Python `str.strip()`
(`\x0b`/`\x0c` written via `Char.ofNat`). -/
def isPySpace (c : Char) : Bool :=
  c == ' ' || c == '\t' || c == '\n' || c == '\r' || c == Char.ofNat 11 || c == Char.ofNat 12

/-- Python `str.strip()`. -/
def pyStrip (s : String) : String :=
  ⟨((s.data.dropWhile isPySpace).reverse.dropWhile isPySpace).reverse⟩

/-- Longest digit run at the head of the character list, with the rest. -/
def spanDigits : List Char → List Char × List Char
  | [] => ([], [])
  | c :: t =>
    if c.isDigit then (c :: (spanDigits t).1, (spanDigits t).2)
    else ([], c :: t)

/-- Value of a digit run. -/
def digitsVal (ds : List Char) : ℕ :=
  ds.foldl (fun a c => 10 * a + (c.toNat - 48)) 0

/-- Optional sign; `true` means negative. -/
def parseSign : List Char → Bool × List Char
  | [] => (false, [])
  | c :: t =>
    if c = '+' then (false, t)
    else if c = '-' then (true, t)
    else (false, c :: t)

/-- Optional `.` followed by fraction digits. -/
def parseFrac : List Char → List Char × List Char
  | [] => ([], [])
  | c :: t =>
    if c = '.' then spanDigits t
    else ([], c :: t)

/-- Optional exponent `e`/`E`, sign, digits; consumed only when the digits
are present (otherwise the whole suffix is left for the caller, which makes
inputs such as `1.5e` fail as Python's `float` does). -/
def parseExp : List Char → ℤ × List Char
  | [] => (0, [])
  | c :: t =>
    if c = 'e' ∨ c = 'E' then
      match parseSign t with
      | (neg, t1) =>
        match spanDigits t1 with
        | ([], _) => (0, c :: t)
        | (d, t2) => ((if neg then -(digitsVal d : ℤ) else (digitsVal d : ℤ)), t2)
    else (0, c :: t)

/-- Exact value of a parsed decimal literal. -/
def numValue (neg : Bool) (ip fp : List Char) (e : ℤ) : ℚ :=
  (if neg then -1 else 1) *
    ((digitsVal ip : ℚ) + (digitsVal fp : ℚ) / (10 : ℚ) ^ fp.length) * (10 : ℚ) ^ e

/-- Parse a maximal decimal literal at the head of the list; `none` when no
digit appears in mantissa position. -/
def parseNumLit (cs : List Char) : Option (ℚ × List Char) :=
  match parseSign cs with
  | (neg, cs1) =>
    match spanDigits cs1 with
    | (ip, cs2) =>
      match parseFrac cs2 with
      | (fp, cs3) =>
        if ip = [] ∧ fp = [] then none
        else
          match parseExp cs3 with
          | (e, cs4) => some (numValue neg ip fp e, cs4)

/-- Python `float(s)` on the finite decimal grammar: the literal must occupy
the entire string. -/
def pyFloat? (s : String) : Option ℚ :=
  match parseNumLit s.data with
  | some (q, []) => some q
  | _ => none

/-- The numeric extraction of `measure` (`keithley_dmm.py` line 653-654):
`float(value_str.strip())`, with a `ValueError` caught and turned into a
failed measurement. -/
def parseMeasurement (s : String) : Option ℚ :=
  pyFloat? (pyStrip s)

/-- Defined from the spec's words, not from the source (the claim describes
a "permissive numeric-literal scan that finds the first numeric token,
tolerating … unexpected non-numeric prefixes/suffixes"): scan left to right
and return the value of the first position where a numeric literal parses. -/
def firstNumericTokenAux : List Char → Option ℚ
  | [] => none
  | c :: t =>
    match parseNumLit (c :: t) with
    | some (q, _) => some q
    | none => firstNumericTokenAux t

/-- Spec-side scanner over a whole response string. -/
def firstNumericToken (s : String) : Option ℚ :=
  firstNumericTokenAux s.data

/-! ## Multimeter: discrete capability sets and snapping -/

/-- Models `self._voltage_ranges = [0.1, 1.0, 10.0, 100.0, 1000.0]`. -/
def voltageRanges : List ℚ := [1/10, 1, 10, 100, 1000]

/-- Models `self._current_ranges = [1e-6, 10e-6, 100e-6, 1e-3, 10e-3, 100e-3, 1.0, 3.0, 10.0]`. -/
def currentRanges : List ℚ :=
  [1/1000000, 1/100000, 1/10000, 1/1000, 1/100, 1/10, 1, 3, 10]

/-- Models `self._resistance_ranges = [100.0, 1e3, 10e3, 100e3, 1e6, 10e6, 100e6]`. -/
def resistanceRanges : List ℚ :=
  [100, 1000, 10000, 100000, 1000000, 10000000, 100000000]

/-- Models `self._valid_nplc_values = [0.01, 0.02, 0.06, 0.2, 1.0, 2.0, 10.0]`. -/
def validNplcValues : List ℚ := [1/100, 1/50, 3/50, 1/5, 1, 2, 10]

/-- Models `self.min_resolution = 1e-9`. -/
def minResolution : ℚ := 1/1000000000

/-- Python `min` of a nonempty list (`0` for `[]`, unreachable in use). -/
def listMin : List ℚ → ℚ
  | [] => 0
  | h :: t => t.foldl min h

/-- Python `max` of a nonempty list (`0` for `[]`, unreachable in use). -/
def listMax : List ℚ → ℚ
  | [] => 0
  | h :: t => t.foldl max h

/-- Range snapping of `measure` (lines 595-599 / 602-606):
`min([r for r in valid_ranges if r >= measurement_range], default=valid_ranges[-1])`,
applied only when the request is not already in the set. -/
def snapRange (valid : List ℚ) (requested : ℚ) : ℚ :=
  if requested ∈ valid then requested
  else
    match valid.filter (fun r => decide (requested ≤ r)) with
    | [] => valid.getLastD 0
    | h :: t => t.foldl min h

/-- NPLC snapping of `measure` (lines 637-639):
`min(self._valid_nplc_values, key=lambda x: abs(x - nplc))` — Python's `min`
keeps the first element among ties, matched by the strict comparison. -/
def snapNplc (valid : List ℚ) (requested : ℚ) : ℚ :=
  if requested ∈ valid then requested
  else
    match valid with
    | [] => 0
    | h :: t => t.foldl (fun best r => if |r - requested| < |best - requested| then r else best) h

/-- The `MeasurementFunction` enum of the source. -/
inductive MeasurementFunction where
  | dcVoltage
  | acVoltage
  | dcCurrent
  | acCurrent
  | resistance2w
  | resistance4w
  | capacitance
  | frequency
deriving DecidableEq

/-- The substring dispatch of `measure` (lines 593-606) on the upper-cased
SCPI token: `VOLT`/`CURR` pick the voltage/current sets, `RES` (matched by
`RESistance` and `FRESistance`) the resistance set; `CAPacitance` and
`FREQuency` match none, so their requested range is written unsnapped. -/
def rangesFor : MeasurementFunction → Option (List ℚ)
  | .dcVoltage => some voltageRanges
  | .acVoltage => some voltageRanges
  | .dcCurrent => some currentRanges
  | .acCurrent => some currentRanges
  | .resistance2w => some resistanceRanges
  | .resistance4w => some resistanceRanges
  | .capacitance => none
  | .frequency => none

/-- The settings `measure` writes to the instrument: `rangeSet = none`
models `:RANGe:AUTO ON`; `some r` models `:RANGe r`. -/
structure DmmApplied where
  rangeSet : Option ℚ
  resolutionSet : Option ℚ
  nplcSet : Option ℚ
deriving DecidableEq

/-- Models `measure` (`keithley_dmm.py` lines 547-675), fault-free command path:
returns `None` when not connected; otherwise snaps the requested range to
the function's discrete set (when one exists), clamps a too-fine resolution
up to `min_resolution`, snaps NPLC to the nearest supported value, issues
`:READ?` and parses the response with `float(·.strip())` — a parse failure
(or absence of a numeric reply) yields `None` without raising. -/
def dmmMeasure (isConnected : Bool) (func : MeasurementFunction)
    (mrange mres mnplc : Option ℚ) (response : String) : Option ℚ × DmmApplied :=
  if isConnected = false then (none, { rangeSet := none, resolutionSet := none, nplcSet := none })
  else
    (parseMeasurement response,
     { rangeSet := mrange.map (fun r =>
         match rangesFor func with
         | some valid => snapRange valid r
         | none => r),
       resolutionSet := mres.map (fun r => if r < minResolution then minResolution else r),
       nplcSet := mnplc.map (fun x => snapNplc validNplcValues x) })

/-! ## Multimeter: measurement statistics -/

/-- Models `statistics.mean` (exact rational arithmetic). -/
def meanQ (xs : List ℚ) : ℚ := xs.sum / (xs.length : ℚ)

/-- The square of `statistics.stdev`: sample variance with Bessel's
correction, `Σ (x - mean)² / (n - 1)`. -/
def sampleVarianceQ (xs : List ℚ) : ℚ :=
  (xs.map (fun x => (x - meanQ xs) ^ 2)).sum / ((xs.length : ℚ) - 1)

/-- Models `statistics.stdev(measurements) if len(measurements) > 1 else 0.0`. -/
noncomputable def stdevR (xs : List ℚ) : ℝ :=
  if 1 < xs.length then Real.sqrt (sampleVarianceQ xs) else 0

/-- The statistics dictionary built by `perform_measurement_statistics`
(lines 481-489).  `cv_percent = none` encodes the `float('inf')` sentinel
returned when the mean is exactly zero. -/
structure MeasurementStats where
  count : ℕ
  mean : ℚ
  standard_deviation : ℝ
  minimum : ℚ
  maximum : ℚ
  range : ℚ
  cv_percent : Option ℝ

/-- The statistics computation over the collected valid samples. -/
noncomputable def computeStats (xs : List ℚ) : MeasurementStats :=
  { count := xs.length, mean := meanQ xs, standard_deviation := stdevR xs,
    minimum := listMin xs, maximum := listMax xs,
    range := listMax xs - listMin xs,
    cv_percent :=
      if meanQ xs = 0 then none
      else some (stdevR xs / ((meanQ xs : ℚ) : ℝ) * 100) }

/-- Outcome of `perform_measurement_statistics`: the raised `ValueError`,
the `None` failure return, or the statistics dictionary. -/
inductive StatsOutcome where
  | raisedValueError
  | failure
  | success (st : MeasurementStats)

/-- The `measurements` list accumulated by `perform_measurement_statistics`
(lines 450-463): the outcomes of `measurement_count` fast readings with the
failed ones dropped, in order. -/
def collectedSamples (count : ℤ) (readings : ℕ → Option ℚ) : List ℚ :=
  (List.range count.toNat).filterMap readings

/-- Models `perform_measurement_statistics` (lines 427-498): a disconnected session
returns `None`; `measurement_count < 2` raises `ValueError` before any
measurement is taken; otherwise `measurement_count` fast readings are taken
(`readings i` is the outcome of the i-th `measure_dc_voltage_fast` call,
`none` for a failed sample), failed samples are dropped (`filterMap`), and
fewer than 2 surviving samples yield `None`; otherwise the statistics are
computed over the surviving samples. -/
noncomputable def perform_measurement_statistics (isConnected : Bool) (count : ℤ)
    (readings : ℕ → Option ℚ) : StatsOutcome :=
  if isConnected = false then .failure
  else if count < 2 then .raisedValueError
  else if (collectedSamples count readings).length < 2 then .failure
  else .success (computeStats (collectedSamples count readings))

/-! ## Multimeter: session state and disconnect -/

/-- In-memory state of a `KeithleyDMM6500` object. -/
structure DmmState where
  isConnected : Bool
  hasInstrument : Bool
  hasResourceManager : Bool
deriving DecidableEq

/-- Fault configuration for the DMM `disconnect` internals. -/
structure DmmDisconnectFaults where
  abortRaises : Bool
  clsRaises : Bool
  closeRaises : Bool
  rmCloseRaises : Bool

/-- The `try` block of the DMM `disconnect` (lines 210-224): `:ABORt`,
`*CLS`, close instrument, close resource manager; the second component
records whether the block raised. -/
def dmmDisconnectBody (s : DmmState) (f : DmmDisconnectFaults) : DmmState × Option Unit :=
  if s.hasInstrument then
    if f.abortRaises then (s, some ())
    else if f.clsRaises then (s, some ())
    else if f.closeRaises then (s, some ())
    else if s.hasResourceManager then
      (if f.rmCloseRaises then (s, some ()) else (s, none))
    else (s, none)
  else if s.hasResourceManager then
    (if f.rmCloseRaises then (s, some ()) else (s, none))
  else (s, none)

/-- Models `_cleanup_connection` of the DMM. -/
def dmmCleanupConnection (_s : DmmState) : DmmState :=
  { isConnected := false, hasInstrument := false, hasResourceManager := false }

/-- DMM `disconnect` (lines 203-232): the `except Exception` clause swallows
any exception of the body (its exception component is discarded), the
`finally` clause unconditionally runs `_cleanup_connection`, and nothing
propagates to the caller (the second component is always `none`). -/
def dmmDisconnect (s : DmmState) (f : DmmDisconnectFaults) : DmmState × Option Unit :=
  (dmmCleanupConnection (dmmDisconnectBody s f).1, none)

/-! ## Helper lemmas: parser character discipline (for C5) -/

/-- Characters that can occur in a decimal literal accepted by `float`. -/
def isNumLitChar (c : Char) : Bool :=
  c.isDigit || c == '+' || c == '-' || c == '.' || c == 'e' || c == 'E'

/-- Relation: `rest` is a suffix of `cs` and every dropped character is a
literal character. -/
def Consumes (cs rest : List Char) : Prop :=
  ∃ pre, cs = pre ++ rest ∧ ∀ c ∈ pre, isNumLitChar c = true

lemma consumes_refl (cs : List Char) : Consumes cs cs :=
  ⟨[], rfl, by simp⟩

lemma consumes_trans {a b c : List Char} (h1 : Consumes a b) (h2 : Consumes b c) :
    Consumes a c := by
  obtain ⟨p1, hp1, ha1⟩ := h1
  obtain ⟨p2, hp2, ha2⟩ := h2
  refine ⟨p1 ++ p2, ?_, ?_⟩
  · rw [hp1, hp2, List.append_assoc]
  · intro x hx
    rcases List.mem_append.mp hx with h | h
    · exact ha1 x h
    · exact ha2 x h

lemma consumes_cons {t r : List Char} {c : Char} (hc : isNumLitChar c = true)
    (h : Consumes t r) : Consumes (c :: t) r := by
  obtain ⟨p, hp, ha⟩ := h
  refine ⟨c :: p, by rw [hp]; rfl, ?_⟩
  intro x hx
  rcases List.mem_cons.mp hx with rfl | hx'
  · exact hc
  · exact ha x hx'

lemma spanDigits_spec : ∀ cs : List Char,
    cs = (spanDigits cs).1 ++ (spanDigits cs).2 ∧
    ∀ c ∈ (spanDigits cs).1, c.isDigit = true
  | [] => ⟨rfl, by simp [spanDigits]⟩
  | c :: t => by
    by_cases h : c.isDigit
    · have ih := spanDigits_spec t
      simp only [spanDigits, if_pos h]
      refine ⟨?_, ?_⟩
      · rw [List.cons_append, ← ih.1]
      · intro x hx
        rcases List.mem_cons.mp hx with rfl | hx'
        · exact h
        · exact ih.2 x hx'
    · simp [spanDigits, if_neg h]

lemma spanDigits_consumes (cs : List Char) : Consumes cs (spanDigits cs).2 := by
  refine ⟨(spanDigits cs).1, (spanDigits_spec cs).1, ?_⟩
  intro c hc
  have := (spanDigits_spec cs).2 c hc
  simp [isNumLitChar, this]

lemma parseSign_consumes (cs : List Char) : Consumes cs (parseSign cs).2 := by
  rcases cs with _ | ⟨c, t⟩
  · exact consumes_refl _
  · by_cases h1 : c = '+'
    · subst h1
      exact ⟨['+'], rfl, by decide⟩
    · by_cases h2 : c = '-'
      · subst h2
        exact ⟨['-'], rfl, by decide⟩
      · have : parseSign (c :: t) = (false, c :: t) := by
          simp only [parseSign]
          rw [if_neg h1, if_neg h2]
        rw [this]
        exact consumes_refl _

lemma parseFrac_consumes (cs : List Char) : Consumes cs (parseFrac cs).2 := by
  rcases cs with _ | ⟨c, t⟩
  · exact consumes_refl _
  · by_cases h1 : c = '.'
    · subst h1
      simp only [parseFrac]
      exact consumes_cons (by decide) (spanDigits_consumes t)
    · have : parseFrac (c :: t) = ([], c :: t) := by
        simp only [parseFrac]
        rw [if_neg h1]
      rw [this]
      exact consumes_refl _

lemma parseExp_consumes (cs : List Char) : Consumes cs (parseExp cs).2 := by
  rcases cs with _ | ⟨c, t⟩
  · exact consumes_refl _
  · by_cases h : c = 'e' ∨ c = 'E'
    · rcases hs : parseSign t with ⟨neg, t1⟩
      rcases hd : spanDigits t1 with ⟨d, t2⟩
      rcases d with _ | ⟨x, ds⟩
      · have : parseExp (c :: t) = (0, c :: t) := by
          simp only [parseExp, if_pos h, hs, hd]
        rw [this]
        exact consumes_refl _
      · have he : (parseExp (c :: t)).2 = t2 := by
          simp only [parseExp, if_pos h, hs, hd]
        rw [he]
        have h1 : Consumes t t1 := by
          have := parseSign_consumes t
          rwa [hs] at this
        have h2 : Consumes t1 t2 := by
          have := spanDigits_consumes t1
          rwa [hd] at this
        refine consumes_cons ?_ (consumes_trans h1 h2)
        rcases h with rfl | rfl <;> decide
    · have : parseExp (c :: t) = (0, c :: t) := by
        simp only [parseExp]
        rw [if_neg h]
      rw [this]
      exact consumes_refl _

lemma parseNumLit_consumes (cs rest : List Char) (q : ℚ)
    (h : parseNumLit cs = some (q, rest)) : Consumes cs rest := by
  rcases hs : parseSign cs with ⟨neg, cs1⟩
  rcases hd : spanDigits cs1 with ⟨ip, cs2⟩
  rcases hf : parseFrac cs2 with ⟨fp, cs3⟩
  rcases he : parseExp cs3 with ⟨e, cs4⟩
  simp only [parseNumLit, hs, hd, hf, he] at h
  by_cases hemp : ip = [] ∧ fp = []
  · rw [if_pos hemp] at h
    cases h
  · rw [if_neg hemp] at h
    have hrest : rest = cs4 := by
      injection h with h'
      injection h' with _ h2
      exact h2.symm
    subst hrest
    have c1 : Consumes cs cs1 := by
      have := parseSign_consumes cs
      rwa [hs] at this
    have c2 : Consumes cs1 cs2 := by
      have := spanDigits_consumes cs1
      rwa [hd] at this
    have c3 : Consumes cs2 cs3 := by
      have := parseFrac_consumes cs2
      rwa [hf] at this
    have c4 : Consumes cs3 rest := by
      have := parseExp_consumes cs3
      rwa [he] at this
    exact consumes_trans (consumes_trans (consumes_trans c1 c2) c3) c4

lemma pyFloat_chars (s : String) (q : ℚ) (h : pyFloat? s = some q) :
    ∀ c ∈ s.data, isNumLitChar c = true := by
  unfold pyFloat? at h
  rcases hp : parseNumLit s.data with _ | ⟨q', rest⟩
  · rw [hp] at h
    cases h
  · rw [hp] at h
    rcases rest with _ | ⟨a, r⟩
    · obtain ⟨pre, hpre, hall⟩ := parseNumLit_consumes _ _ _ hp
      rw [List.append_nil] at hpre
      intro c hc
      exact hall c (hpre ▸ hc)
    · cases h

/-! ## Helper lemmas: folds for `min`, `max` and nearest-by-distance -/

lemma foldl_min_le_init (t : List ℚ) : ∀ h : ℚ, t.foldl min h ≤ h := by
  induction t with
  | nil => intro h; simp
  | cons a t ih =>
    intro h
    rw [List.foldl_cons]
    exact le_trans (ih (min h a)) (min_le_left _ _)

lemma foldl_min_mem (t : List ℚ) : ∀ h : ℚ, t.foldl min h ∈ h :: t := by
  induction t with
  | nil => intro h; simp
  | cons a t ih =>
    intro h
    rw [List.foldl_cons]
    rcases List.mem_cons.mp (ih (min h a)) with heq | hmem
    · rcases min_choice h a with hc | hc
      · rw [hc] at heq ⊢
        rw [heq]
        exact List.mem_cons_self _ _
      · rw [hc] at heq ⊢
        rw [heq]
        exact List.mem_cons_of_mem _ (List.mem_cons_self _ _)
    · exact List.mem_cons_of_mem _ (List.mem_cons_of_mem _ hmem)

lemma foldl_min_le (t : List ℚ) : ∀ h x : ℚ, x ∈ h :: t → t.foldl min h ≤ x := by
  induction t with
  | nil =>
    intro h x hx
    rcases List.mem_cons.mp hx with rfl | hx'
    · simp
    · cases hx'
  | cons a t ih =>
    intro h x hx
    rw [List.foldl_cons]
    rcases List.mem_cons.mp hx with rfl | hx'
    · exact le_trans (foldl_min_le_init t (min x a)) (min_le_left _ _)
    · rcases List.mem_cons.mp hx' with rfl | hx''
      · exact le_trans (foldl_min_le_init t (min h x)) (min_le_right _ _)
      · exact ih (min h a) x (List.mem_cons_of_mem _ hx'')

lemma foldl_max_init_le (t : List ℚ) : ∀ h : ℚ, h ≤ t.foldl max h := by
  induction t with
  | nil => intro h; simp
  | cons a t ih =>
    intro h
    rw [List.foldl_cons]
    exact le_trans (le_max_left _ _) (ih (max h a))

lemma foldl_max_mem (t : List ℚ) : ∀ h : ℚ, t.foldl max h ∈ h :: t := by
  induction t with
  | nil => intro h; simp
  | cons a t ih =>
    intro h
    rw [List.foldl_cons]
    rcases List.mem_cons.mp (ih (max h a)) with heq | hmem
    · rcases max_choice h a with hc | hc
      · rw [hc] at heq ⊢
        rw [heq]
        exact List.mem_cons_self _ _
      · rw [hc] at heq ⊢
        rw [heq]
        exact List.mem_cons_of_mem _ (List.mem_cons_self _ _)
    · exact List.mem_cons_of_mem _ (List.mem_cons_of_mem _ hmem)

lemma foldl_max_le (t : List ℚ) : ∀ h x : ℚ, x ∈ h :: t → x ≤ t.foldl max h := by
  induction t with
  | nil =>
    intro h x hx
    rcases List.mem_cons.mp hx with rfl | hx'
    · simp
    · cases hx'
  | cons a t ih =>
    intro h x hx
    rw [List.foldl_cons]
    rcases List.mem_cons.mp hx with rfl | hx'
    · exact le_trans (le_max_left _ _) (foldl_max_init_le t (max x a))
    · rcases List.mem_cons.mp hx' with rfl | hx''
      · exact le_trans (le_max_right _ _) (foldl_max_init_le t (max h x))
      · exact ih (max h a) x (List.mem_cons_of_mem _ hx'')

lemma listMin_mem (xs : List ℚ) (h : xs ≠ []) : listMin xs ∈ xs := by
  rcases xs with _ | ⟨a, t⟩
  · exact absurd rfl h
  · exact foldl_min_mem t a

lemma listMin_le (xs : List ℚ) (x : ℚ) (hx : x ∈ xs) : listMin xs ≤ x := by
  rcases xs with _ | ⟨a, t⟩
  · cases hx
  · exact foldl_min_le t a x hx

lemma listMax_mem (xs : List ℚ) (h : xs ≠ []) : listMax xs ∈ xs := by
  rcases xs with _ | ⟨a, t⟩
  · exact absurd rfl h
  · exact foldl_max_mem t a

lemma listMax_ge (xs : List ℚ) (x : ℚ) (hx : x ∈ xs) : x ≤ listMax xs := by
  rcases xs with _ | ⟨a, t⟩
  · cases hx
  · exact foldl_max_le t a x hx

lemma foldl_argmin_init_le (q : ℚ) (t : List ℚ) : ∀ h : ℚ,
    |(t.foldl (fun best r => if |r - q| < |best - q| then r else best) h) - q| ≤ |h - q| := by
  induction t with
  | nil => intro h; simp
  | cons a t ih =>
    intro h
    rw [List.foldl_cons]
    refine le_trans (ih _) ?_
    by_cases hc : |a - q| < |h - q|
    · rw [if_pos hc]
      exact le_of_lt hc
    · rw [if_neg hc]

lemma foldl_argmin_mem (q : ℚ) (t : List ℚ) : ∀ h : ℚ,
    (t.foldl (fun best r => if |r - q| < |best - q| then r else best) h) ∈ h :: t := by
  induction t with
  | nil => intro h; simp
  | cons a t ih =>
    intro h
    rw [List.foldl_cons]
    by_cases hc : |a - q| < |h - q|
    · rw [if_pos hc]
      rcases List.mem_cons.mp (ih a) with heq | hmem
      · rw [heq]
        exact List.mem_cons_of_mem _ (List.mem_cons_self _ _)
      · exact List.mem_cons_of_mem _ (List.mem_cons_of_mem _ hmem)
    · rw [if_neg hc]
      rcases List.mem_cons.mp (ih h) with heq | hmem
      · rw [heq]
        exact List.mem_cons_self _ _
      · exact List.mem_cons_of_mem _ (List.mem_cons_of_mem _ hmem)

lemma foldl_argmin_le (q : ℚ) (t : List ℚ) : ∀ h x : ℚ, x ∈ h :: t →
    |(t.foldl (fun best r => if |r - q| < |best - q| then r else best) h) - q| ≤ |x - q| := by
  induction t with
  | nil =>
    intro h x hx
    rcases List.mem_cons.mp hx with rfl | hx'
    · simp
    · cases hx'
  | cons a t ih =>
    intro h x hx
    rw [List.foldl_cons]
    rcases List.mem_cons.mp hx with rfl | hx'
    · by_cases hc : |a - q| < |x - q|
      · rw [if_pos hc]
        exact le_trans (foldl_argmin_init_le q t a) (le_of_lt hc)
      · rw [if_neg hc]
        exact foldl_argmin_init_le q t x
    · rcases List.mem_cons.mp hx' with rfl | hx''
      · by_cases hc : |x - q| < |h - q|
        · rw [if_pos hc]
          exact foldl_argmin_init_le q t x
        · rw [if_neg hc]
          exact le_trans (foldl_argmin_init_le q t h) (not_lt.mp hc)
      · by_cases hc : |a - q| < |h - q| <;>
          [rw [if_pos hc]; rw [if_neg hc]] <;>
          exact ih _ x (List.mem_cons_of_mem _ hx'')

/-! ## Helper lemmas: range and NPLC snapping (for C8) -/

/-- The property the spec ascribes to the applied range: the smallest
supported value greater than or equal to the request. -/
def SmallestSupportedGE (valid : List ℚ) (req used : ℚ) : Prop :=
  used ∈ valid ∧ req ≤ used ∧ ∀ r ∈ valid, req ≤ r → used ≤ r

lemma snapRange_spec_ge (valid : List ℚ) (req : ℚ) (h : ∃ r ∈ valid, req ≤ r) :
    SmallestSupportedGE valid req (snapRange valid req) := by
  unfold snapRange
  by_cases hm : req ∈ valid
  · rw [if_pos hm]
    exact ⟨hm, le_refl _, fun r _ hle => hle⟩
  · rw [if_neg hm]
    obtain ⟨r0, hr0, hle0⟩ := h
    have hr0f : r0 ∈ valid.filter (fun r => decide (req ≤ r)) :=
      List.mem_filter.mpr ⟨hr0, decide_eq_true hle0⟩
    rcases hf : valid.filter (fun r => decide (req ≤ r)) with _ | ⟨a, t⟩
    · rw [hf] at hr0f
      cases hr0f
    · simp only [hf]
    -- the result is the minimum of the nonempty filtered list
      have hmem : t.foldl min a ∈ valid.filter (fun r => decide (req ≤ r)) := by
        rw [hf]
        exact foldl_min_mem t a
      refine ⟨(List.mem_filter.mp hmem).1, of_decide_eq_true (List.mem_filter.mp hmem).2,
        fun r hr hler => ?_⟩
      have : r ∈ valid.filter (fun r => decide (req ≤ r)) :=
        List.mem_filter.mpr ⟨hr, decide_eq_true hler⟩
      rw [hf] at this
      exact foldl_min_le t a r this

lemma snapRange_above_max (valid : List ℚ) (req : ℚ) (hall : ∀ r ∈ valid, r < req) :
    snapRange valid req = valid.getLastD 0 := by
  unfold snapRange
  rw [if_neg (fun hm => absurd (hall req hm) (lt_irrefl req))]
  have hf : valid.filter (fun r => decide (req ≤ r)) = [] := by
    rw [List.filter_eq_nil_iff]
    intro r hr
    simp [not_le.mpr (hall r hr)]
  simp only [hf]

lemma snapNplc_spec (valid : List ℚ) (req : ℚ) (hne : valid ≠ []) :
    snapNplc valid req ∈ valid ∧
    ∀ r ∈ valid, |snapNplc valid req - req| ≤ |r - req| := by
  unfold snapNplc
  by_cases hm : req ∈ valid
  · rw [if_pos hm]
    refine ⟨hm, fun r _ => ?_⟩
    simp [abs_nonneg]
  · rw [if_neg hm]
    rcases valid with _ | ⟨a, t⟩
    · exact absurd rfl hne
    · exact ⟨foldl_argmin_mem req t a, fun r hr => foldl_argmin_le req t a r hr⟩

/-! ## Helper lemmas: statistics (for C6, C7) -/

lemma computeStats_props (xs : List ℚ) (h2 : 2 ≤ xs.length) :
    (computeStats xs).mean * (xs.length : ℚ) = xs.sum ∧
    0 ≤ (computeStats xs).standard_deviation ∧
    (computeStats xs).standard_deviation ^ 2 * ((xs.length : ℝ) - 1) =
      (((xs.map (fun x => (x - (computeStats xs).mean) ^ 2)).sum : ℚ) : ℝ) ∧
    (computeStats xs).range = (computeStats xs).maximum - (computeStats xs).minimum ∧
    (computeStats xs).minimum ∈ xs ∧ (computeStats xs).maximum ∈ xs ∧
    (∀ x ∈ xs, (computeStats xs).minimum ≤ x ∧ x ≤ (computeStats xs).maximum) ∧
    ((computeStats xs).mean = 0 → (computeStats xs).cv_percent = none) ∧
    ((computeStats xs).mean ≠ 0 →
      (computeStats xs).cv_percent =
        some ((computeStats xs).standard_deviation / (((computeStats xs).mean : ℚ) : ℝ) * 100)) := by
  have hne : xs ≠ [] := by
    intro h
    rw [h] at h2
    simp at h2
  have hlen0 : (xs.length : ℚ) ≠ 0 := Nat.cast_ne_zero.mpr (by omega)
  have hlen1 : 1 < xs.length := by omega
  have hvar_nonneg : 0 ≤ sampleVarianceQ xs := by
    unfold sampleVarianceQ
    apply div_nonneg
    · apply List.sum_nonneg
      intro x hx
      simp only [List.mem_map] at hx
      obtain ⟨y, _, rfl⟩ := hx
      positivity
    · have h2' : (2 : ℚ) ≤ (xs.length : ℚ) := by exact_mod_cast h2
      linarith
  have hsd : (computeStats xs).standard_deviation = Real.sqrt (sampleVarianceQ xs) := by
    simp only [computeStats, stdevR, if_pos hlen1]
  have hne1 : ((xs.length : ℝ) - 1) ≠ 0 := by
    have h2' : (2 : ℝ) ≤ (xs.length : ℝ) := by exact_mod_cast h2
    linarith
  refine ⟨?_, ?_, ?_, rfl, ?_, ?_, ?_, ?_, ?_⟩
  · simp only [computeStats, meanQ]
    exact div_mul_cancel₀ _ hlen0
  · rw [hsd]
    exact Real.sqrt_nonneg _
  · rw [hsd, Real.sq_sqrt (by exact_mod_cast hvar_nonneg)]
    simp only [computeStats, sampleVarianceQ]
    push_cast
    rw [div_mul_cancel₀ _ hne1]
  · simp only [computeStats]
    exact listMin_mem xs hne
  · simp only [computeStats]
    exact listMax_mem xs hne
  · intro x hx
    simp only [computeStats]
    exact ⟨listMin_le xs x hx, listMax_ge xs x hx⟩
  · intro h
    simp only [computeStats] at h ⊢
    rw [if_pos h]
  · intro h
    simp only [computeStats] at h ⊢
    rw [if_neg h]

lemma stats_success_inv (count : ℤ) (readings : ℕ → Option ℚ) (st : MeasurementStats)
    (h : perform_measurement_statistics true count readings = .success st) :
    st = computeStats (collectedSamples count readings) ∧
    2 ≤ (collectedSamples count readings).length := by
  unfold perform_measurement_statistics at h
  rw [if_neg (by simp)] at h
  by_cases h1 : count < 2
  · rw [if_pos h1] at h
    cases h
  · rw [if_neg h1] at h
    by_cases hl : (collectedSamples count readings).length < 2
    · rw [if_pos hl] at h
      cases h
    · rw [if_neg hl] at h
      injection h with h'
      exact ⟨h'.symm, by omega⟩

/-! ## Claim theorems: disconnect and multimeter -/

/-- C4: for any prior power-supply or multimeter session state and any
combination of internal faults (failing per-channel de-energize, `*CLS`,
instrument close or resource-manager close), `disconnect()` propagates no
exception to its caller and always leaves the in-memory state Disconnected
with both transport handles released. -/
theorem disconnect_always_disconnects (sp : PsuState) (fp : PsuDisconnectFaults)
    (sd : DmmState) (fd : DmmDisconnectFaults) :
    (psuDisconnect sp fp).2 = none ∧
    (psuDisconnect sp fp).1.isConnected = false ∧
    (psuDisconnect sp fp).1.hasInstrument = false ∧
    (psuDisconnect sp fp).1.hasResourceManager = false ∧
    (dmmDisconnect sd fd).2 = none ∧
    (dmmDisconnect sd fd).1.isConnected = false ∧
    (dmmDisconnect sd fd).1.hasInstrument = false ∧
    (dmmDisconnect sd fd).1.hasResourceManager = false :=
  ⟨rfl, rfl, rfl, rfl, rfl, rfl, rfl, rfl⟩

/-- C5, counterexample: the response `"1.5V\n"` contains the leading numeric
token `1.5`, which the claim's permissive first-token scan would extract,
yet `measure`'s actual parse (`float` of the stripped text) fails on the
non-numeric suffix and yields a failed measurement. -/
theorem measure_parse_not_token_scan :
    firstNumericToken ("1.5V\n") = some (3 / 2) ∧
    parseMeasurement ("1.5V\n") = none := by
  constructor
  · simp +decide [firstNumericToken, firstNumericTokenAux, parseNumLit, parseSign,
      spanDigits, parseFrac, parseExp, digitsVal, numValue]
    norm_num
  · simp +decide [parseMeasurement, pyStrip, pyFloat?, parseNumLit, parseSign,
      spanDigits, parseFrac, parseExp, digitsVal, numValue]

/-- C5, amended: `measure` extracts its value by applying the `float`
conversion to the whitespace-stripped response text — leading/trailing
whitespace and scientific notation are tolerated, but any character of the
stripped text outside the numeric-literal alphabet makes the measurement a
failure (there is no first-token scan).  In particular
`"+1.234567E-03\n"` parses to 0.001234567 and `"ERR -113,No header\n"` is a
failure, not the literal value −113. -/
theorem measure_parse_float_of_stripped :
    (∀ (s : String) (c : Char), c ∈ (pyStrip s).data → isNumLitChar c = false →
      parseMeasurement s = none) ∧
    parseMeasurement ("+1.234567E-03\n") = some (1234567 / 1000000000) ∧
    parseMeasurement ("ERR -113,No header\n") = none := by
  refine ⟨?_, ?_, ?_⟩
  · intro s c hc hnc
    unfold parseMeasurement
    rcases hv : pyFloat? (pyStrip s) with _ | q
    · rfl
    · have := pyFloat_chars (pyStrip s) q hv c hc
      rw [hnc] at this
      cases this
  · simp +decide [parseMeasurement, pyStrip, pyFloat?, parseNumLit, parseSign,
      spanDigits, parseFrac, parseExp, digitsVal, numValue]
    norm_num
  · simp +decide [parseMeasurement, pyStrip, pyFloat?, parseNumLit, parseSign,
      spanDigits, parseFrac, parseExp, digitsVal, numValue]

/-- C5, witness: a response with an embedded colon fails to parse. -/
theorem measure_parse_float_of_stripped_witness :
    parseMeasurement ("reading: 7") = none :=
  measure_parse_float_of_stripped.1 ("reading: 7") ':' (by decide) (by decide)

/-- C6: `perform_measurement_statistics` raises `ValueError` for any
requested count below 2 before consuming any reading; with an admissible
count but fewer than 2 surviving samples (failed samples dropped, never
zero-filled) it returns the failure result; and any successful result is
computed over exactly the surviving samples, of which there are at least 2.
In particular count 1 is rejected and count 5 with a single good sample
fails. -/
theorem statistics_require_two_samples :
    (∀ (count : ℤ) (readings : ℕ → Option ℚ), count < 2 →
      perform_measurement_statistics true count readings = .raisedValueError) ∧
    (∀ (count : ℤ) (readings : ℕ → Option ℚ), ¬count < 2 →
      (collectedSamples count readings).length < 2 →
      perform_measurement_statistics true count readings = .failure) ∧
    (∀ (count : ℤ) (readings : ℕ → Option ℚ) (st : MeasurementStats),
      perform_measurement_statistics true count readings = .success st →
      st.count = (collectedSamples count readings).length ∧ 2 ≤ st.count) ∧
    perform_measurement_statistics true 1 (fun _ => some 1) = .raisedValueError ∧
    perform_measurement_statistics true 5 (fun n => if n = 0 then some 1 else none) =
      .failure := by
  refine ⟨?_, ?_, ?_, ?_, ?_⟩
  · intro count readings hlt
    unfold perform_measurement_statistics
    rw [if_neg (by simp), if_pos hlt]
  · intro count readings hge hlen
    unfold perform_measurement_statistics
    rw [if_neg (by simp), if_neg hge, if_pos hlen]
  · intro count readings st h
    obtain ⟨hst, hlen⟩ := stats_success_inv count readings st h
    subst hst
    exact ⟨rfl, hlen⟩
  · simp [perform_measurement_statistics]
  · simp +decide [perform_measurement_statistics, collectedSamples, List.range_succ]

/-- C6, witness: count 1 is rejected whatever the instrument would answer. -/
theorem statistics_require_two_samples_witness :
    perform_measurement_statistics true 1 (fun _ => none) = .raisedValueError :=
  statistics_require_two_samples.1 1 (fun _ => none) (by norm_num)

/-- C7: every successful `perform_measurement_statistics` result satisfies,
over the list of surviving samples: the mean is the arithmetic mean, the
standard deviation is the (nonnegative) sample standard deviation — its
square times `n − 1` is the sum of squared deviations from the mean —,
minimum/maximum bound the samples and belong to them,
range = maximum − minimum, and the coefficient of variation is
stdev/mean·100 with the infinite sentinel (`none`) exactly when the mean is
zero.  In particular samples `[1, 1, 1, 1]` give mean 1, stdev 0, range 0
and coefficient of variation 0. -/
theorem statistics_formulas :
    (∀ (count : ℤ) (readings : ℕ → Option ℚ) (st : MeasurementStats),
      perform_measurement_statistics true count readings = .success st →
      st.mean * ((collectedSamples count readings).length : ℚ) =
        (collectedSamples count readings).sum ∧
      0 ≤ st.standard_deviation ∧
      st.standard_deviation ^ 2 * (((collectedSamples count readings).length : ℝ) - 1) =
        ((((collectedSamples count readings).map (fun x => (x - st.mean) ^ 2)).sum : ℚ) : ℝ) ∧
      st.range = st.maximum - st.minimum ∧
      st.minimum ∈ collectedSamples count readings ∧
      st.maximum ∈ collectedSamples count readings ∧
      (∀ x ∈ collectedSamples count readings, st.minimum ≤ x ∧ x ≤ st.maximum) ∧
      (st.mean = 0 → st.cv_percent = none) ∧
      (st.mean ≠ 0 →
        st.cv_percent = some (st.standard_deviation / ((st.mean : ℚ) : ℝ) * 100))) ∧
    perform_measurement_statistics true 4 (fun _ => some 1) =
      .success (computeStats [1, 1, 1, 1]) ∧
    (computeStats [1, 1, 1, 1]).mean = 1 ∧
    (computeStats [1, 1, 1, 1]).standard_deviation = 0 ∧
    (computeStats [1, 1, 1, 1]).range = 0 ∧
    (computeStats [1, 1, 1, 1]).cv_percent = some 0 := by
  refine ⟨?_, ?_, ?_, ?_, ?_, ?_⟩
  · intro count readings st h
    obtain ⟨hst, hlen⟩ := stats_success_inv count readings st h
    subst hst
    exact computeStats_props _ hlen
  · simp +decide [perform_measurement_statistics, collectedSamples, List.range_succ]
  · norm_num [computeStats, meanQ]
  · norm_num [computeStats, stdevR, sampleVarianceQ, meanQ]
  · norm_num [computeStats, listMin, listMax]
  · norm_num [computeStats, stdevR, sampleVarianceQ, meanQ]

/-- C7, witness: the mean property instantiated on the constant run. -/
theorem statistics_formulas_witness :
    (computeStats (collectedSamples 4 (fun _ => some 1))).mean *
        ((collectedSamples 4 (fun _ => some 1)).length : ℚ) =
      (collectedSamples 4 (fun _ => some 1)).sum :=
  (statistics_formulas.1 4 (fun _ => some 1)
    (computeStats (collectedSamples 4 (fun _ => some 1)))
    (by simp +decide [perform_measurement_statistics, collectedSamples, List.range_succ])).1

/-- C8, counterexample: a requested DC-voltage range of 2000 V is not in the
supported set; the range the call uses is 1000 V, the *largest* supported
value, which is smaller than the request — so it is not "the smallest
supported value greater than or equal to the requested range" the claim
describes (no such value exists). -/
theorem range_snapping_above_max_counterexample :
    (2000 : ℚ) ∉ voltageRanges ∧
    (dmmMeasure true .dcVoltage (some 2000) none none ("x")).2.rangeSet = some 1000 ∧
    ¬SmallestSupportedGE voltageRanges 2000 1000 := by
  have hall : ∀ r ∈ voltageRanges, r < 2000 := by
    norm_num [voltageRanges]
  refine ⟨?_, ?_, ?_⟩
  · norm_num [voltageRanges]
  · simp only [dmmMeasure, rangesFor, Option.map_some', Bool.true_eq_false, if_false]
    rw [snapRange_above_max voltageRanges 2000 hall]
    rfl
  · rintro ⟨-, hge, -⟩
    norm_num at hge

/-- C8, amended: an out-of-set range request never fails the call — the
measurement result is still the parse of the instrument's reply: when some
supported value is ≥ the request, the applied range is the smallest such
value; when the request exceeds every supported value, the applied range is
the *largest* supported value (`valid_ranges[-1]`).  An out-of-set NPLC
request is snapped to the supported value nearest by absolute difference. -/
theorem range_snapping_amended :
    (∀ (func : MeasurementFunction) (valid : List ℚ) (req : ℚ) (resp : String),
      rangesFor func = some valid →
      ((∃ r ∈ valid, req ≤ r) →
        ∃ u, (dmmMeasure true func (some req) none none resp).2.rangeSet = some u ∧
          SmallestSupportedGE valid req u) ∧
      ((∀ r ∈ valid, r < req) →
        (dmmMeasure true func (some req) none none resp).2.rangeSet =
          some (valid.getLastD 0)) ∧
      (dmmMeasure true func (some req) none none resp).1 = parseMeasurement resp) ∧
    (∀ (req : ℚ) (resp : String),
      ∃ u, (dmmMeasure true .dcVoltage none none (some req) resp).2.nplcSet = some u ∧
        u ∈ validNplcValues ∧ ∀ r ∈ validNplcValues, |u - req| ≤ |r - req|) := by
  constructor
  · intro func valid req resp hfor
    refine ⟨?_, ?_, ?_⟩
    · intro hex
      refine ⟨snapRange valid req, ?_, snapRange_spec_ge valid req hex⟩
      simp only [dmmMeasure, Option.map_some', Bool.true_eq_false, if_false, hfor]
    · intro hall
      simp only [dmmMeasure, Option.map_some', Bool.true_eq_false, if_false, hfor]
      rw [snapRange_above_max valid req hall]
    · simp only [dmmMeasure, Bool.true_eq_false, if_false]
  · intro req resp
    refine ⟨snapNplc validNplcValues req, ?_, ?_, ?_⟩
    · simp only [dmmMeasure, Option.map_some', Bool.true_eq_false, if_false]
    · exact (snapNplc_spec validNplcValues req (by simp [validNplcValues])).1
    · exact (snapNplc_spec validNplcValues req (by simp [validNplcValues])).2

/-- C8, witness: a 5 V request snaps to a supported value that is the
smallest supported value ≥ 5. -/
theorem range_snapping_amended_witness :
    ∃ u, (dmmMeasure true .dcVoltage (some 5) none none ("x")).2.rangeSet = some u ∧
      SmallestSupportedGE voltageRanges 5 u :=
  ((range_snapping_amended.1 .dcVoltage voltageRanges 5 ("x") rfl).1
    ⟨10, by norm_num [voltageRanges], by norm_num⟩)
